import Mathlib

/-!
Shallow embedding of the rimer timer library (`src/client.go`): a Redis-backed
timer protocol with three operations — `Create`, `Poll`, `Next` — over four
kinds of store keys per namespace.

The store is modelled as a single keyspace mapping string keys to values
(string / set / list) with an optional absolute expiry deadline; the clock of
the store is the `now` field.  Redis commands are modelled as executing
immediately, in program order, with one exception taken from the source: the
only command `Poll` issues on the go-redis pipeliner is the `Exists` check
inside `getRegisteredTempSet`, and the source reads its `Result()` inside the
`Pipelined` callback, before the pipeline executes — that read yields the
zero value, so it is modelled as the constant 0 (the queued `EXISTS` later
runs with its result discarded and has no observable effect).  Wrong-type
accesses behave as accesses to a
missing key (the protocol never performs one on its own keys).  The `KEYS`
glob supports the `*` and `?` metacharacters — the only metacharacters the
patterns built by this client contain unless a caller embeds others in a
namespace name; bracket classes are not modelled.  Following go-redis, a
`Set` with zero expiration stores the key with no time-to-live.
-/

namespace Rimer

/-- A Redis value: a plain string, a set of members, or a list. -/
inductive RVal where
  | str (v : String)
  | set (members : List String)
  | list (elems : List String)
deriving DecidableEq, Repr

/-- A stored entry: a value plus an optional absolute expiry deadline
(`none` means the key never expires). -/
structure Entry where
  val : RVal
  deadline : Option Nat
deriving DecidableEq, Repr

/-- Is the entry live at time `now`?  Redis auto-removes a key once its
deadline is reached. -/
def Entry.live (e : Entry) (now : Nat) : Bool :=
  match e.deadline with
  | none => true
  | some d => now < d

/-- The key-value store together with the current time. -/
structure Store where
  now : Nat
  data : List (String × Entry)
deriving DecidableEq, Repr

/-- Raw association-list lookup, ignoring expiry. -/
def Store.rawGet (s : Store) (k : String) : Option Entry :=
  match s.data.find? (fun kv => kv.1 == k) with
  | some kv => some kv.2
  | none => none

/-- Lookup as Redis sees it: expired entries are absent. -/
def Store.getLive (s : Store) (k : String) : Option Entry :=
  match s.rawGet k with
  | some e => if e.live s.now then some e else none
  | none => none

/-- Redis `EXISTS` (0/1) as a Bool. -/
def Store.existsKey (s : Store) (k : String) : Bool :=
  (s.getLive k).isSome

/-- Write an entry at a key, replacing any previous entry there. -/
def Store.setKey (s : Store) (k : String) (e : Entry) : Store :=
  ⟨s.now, (k, e) :: s.data.filter (fun kv => kv.1 != k)⟩

/-- Redis `DEL`. -/
def Store.del (s : Store) (k : String) : Store :=
  ⟨s.now, s.data.filter (fun kv => kv.1 != k)⟩

/-- Redis `SMEMBERS`: a missing (or non-set) key reads as the empty set. -/
def Store.smembers (s : Store) (k : String) : List String :=
  match s.getLive k with
  | some ⟨.set ms, _⟩ => ms
  | _ => []

/-- Add members to a duplicate-free member list, keeping insertion order. -/
def addMembers (cur xs : List String) : List String :=
  xs.foldl (fun acc x => if acc.contains x then acc else acc ++ [x]) cur

/-- Redis `SADD`. -/
def Store.sadd (s : Store) (k : String) (xs : List String) : Store :=
  match s.getLive k with
  | some ⟨.set ms, dl⟩ => s.setKey k ⟨.set (addMembers ms xs), dl⟩
  | _ => s.setKey k ⟨.set (addMembers [] xs), none⟩

/-- Redis `SREM` (one member); Redis deletes a set key that becomes empty. -/
def Store.srem (s : Store) (k x : String) : Store :=
  match s.getLive k with
  | some ⟨.set ms, dl⟩ =>
    let ms' := ms.erase x
    if ms'.isEmpty then s.del k else s.setKey k ⟨.set ms', dl⟩
  | _ => s

/-- Redis `SDIFF k1 k2`: members of `k1` not in `k2`. -/
def Store.sdiff (s : Store) (k1 k2 : String) : List String :=
  (s.smembers k1).filter (fun x => !(s.smembers k2).contains x)

/-- The elements of a Redis list key (missing key reads as empty). -/
def Store.lelems (s : Store) (k : String) : List String :=
  match s.getLive k with
  | some ⟨.list es, _⟩ => es
  | _ => []

/-- Redis `LPUSH` (push onto the head/left end). -/
def Store.lpush (s : Store) (k v : String) : Store :=
  match s.getLive k with
  | some ⟨.list es, dl⟩ => s.setKey k ⟨.list (v :: es), dl⟩
  | _ => s.setKey k ⟨.list [v], none⟩

/-- Redis `BRPOP` on one key: pops from the tail/right end and answers with
the two-element reply `[key, element]`; `none` models "would block".  Redis
deletes a list key that becomes empty. -/
def Store.rpopReply (s : Store) (k : String) : Option (List String × Store) :=
  match s.getLive k with
  | some ⟨.list es, dl⟩ =>
    match es.getLast? with
    | some v =>
      some ([k, v], if es.length = 1 then s.del k else s.setKey k ⟨.list es.dropLast, dl⟩)
    | none => none
  | _ => none

/-- Glob matching over character lists: `*` matches any run (some suffix of
the subject matches the rest of the pattern), `?` matches any one character,
anything else matches literally.  Structurally recursive on the pattern. -/
def globM : List Char → List Char → Bool
  | [], s => s.isEmpty
  | '*' :: ps, s => s.tails.any (fun t => globM ps t)
  | '?' :: ps, s =>
    match s with
    | [] => false
    | _ :: cs => globM ps cs
  | p :: ps, s =>
    match s with
    | [] => false
    | c :: cs => p == c && globM ps cs

/-- Glob matching on strings. -/
def globMatch (pat k : String) : Bool :=
  globM pat.data k.data

/-- Redis `KEYS pat`: every live key matching the glob pattern.  Note that
the result is the full key names, not any suffix of them. -/
def Store.keysMatching (s : Store) (pat : String) : List String :=
  (s.data.filter (fun kv => kv.2.live s.now && globMatch pat kv.1)).map (fun kv => kv.1)

/-- All live keys of the store. -/
def Store.liveKeys (s : Store) : List String :=
  (s.data.filter (fun kv => kv.2.live s.now)).map (fun kv => kv.1)

/-- The same store observed at time `t` (the store clock advancing is how
auto-expiry becomes visible). -/
def Store.atTime (s : Store) (t : Nat) : Store :=
  ⟨t, s.data⟩

/-- Well-formedness: the association list binds each key at most once.  All
stores reachable from the empty store are well-formed. -/
def Store.WF (s : Store) : Prop :=
  (s.data.map Prod.fst).Nodup

/-- Source `defaultPrefix` (client.go line 12). -/
def defaultPfx : String := "timers"

/-- Source `Client`; the field `pfx` models the Go field `Prefix` (renamed
for Lean).  The redis connection handle carries no protocol state and is
dropped. -/
structure Client where
  pfx : String
deriving DecidableEq, Repr

/-- Source `New`: a client with the default prefix. -/
def New : Client :=
  ⟨defaultPfx⟩

/-- Source `Namespace`. -/
structure Namespace where
  name : String
  client : Client
deriving DecidableEq, Repr

/-- Source `Client.Namespace` (renamed: `namespace` is a Lean keyword). -/
def Client.mkNamespace (c : Client) (ns : String) : Namespace :=
  ⟨ns, c⟩

/-- Source `timerKey`. -/
def Namespace.timerKey (n : Namespace) (id : String) : String :=
  n.client.pfx ++ ":" ++ n.name ++ ":timer:" ++ id

/-- Source `queueKey`. -/
def Namespace.queueKey (n : Namespace) : String :=
  n.client.pfx ++ ":" ++ n.name ++ ":queue"

/-- Source `registeredKey`. -/
def Namespace.registeredKey (n : Namespace) : String :=
  n.client.pfx ++ ":" ++ n.name ++ ":registered"

/-- Source `registeredTempKey`; the token stands for the
`strconv.Itoa(int(time.Now().UnixNano()))` value, which is chosen by the
environment, so it is an explicit parameter here. -/
def Namespace.registeredTempKey (n : Namespace) (token : Int) : String :=
  n.client.pfx ++ ":" ++ n.name ++ ":_registered_" ++ toString token

/-- The exact error message of `getRegisteredTempSet`. -/
def scratchExistsMsg : String :=
  "temporary registered key already exists, try again later"

/-- The value a `Result()` read yields inside a `Pipelined` callback for a
command that has only been queued and not yet executed: the zero value,
with no error (a go-redis pipeline runs its commands only after the
callback returns). -/
def pendingPipelineInt : Int := 0

/-- Source `getRegisteredTempSet`: pick the scratch-set name and compare the
result of `p.Exists` against 1.  The `Exists` is issued on the pipeliner
`p` — the only pipelined command in `Poll` — so the `Result()` read here
happens before the command executes and always yields `pendingPipelineInt`:
the scratch-exists error branch is unreachable in the source.  The store
argument is unused for exactly that reason. -/
def Namespace.getRegisteredTempSet (n : Namespace) (_s : Store) (token : Int) :
    Except String String :=
  let s2 := n.registeredTempKey token
  let existsVal := pendingPipelineInt
  if existsVal = 1 then .error scratchExistsMsg else .ok s2

/-- Source `Create`: `SET` the timer key with empty payload and TTL `d`,
then `SADD` the id to the registered set.  Per go-redis, `d = 0` stores the
key with no TTL. -/
def Namespace.create (n : Namespace) (s : Store) (id : String) (d : Nat) : Store :=
  let s1 := s.setKey (n.timerKey id) ⟨.str "", if d = 0 then none else some (s.now + d)⟩
  s1.sadd n.registeredKey [id]

/-- Source `Poll` delivery loop (lines 102-111): for each expired id,
`LPUSH` it onto the queue, then `SREM` it from the registered set. -/
def Namespace.deliver (n : Namespace) (s : Store) (ks : List String) : Store :=
  ks.foldl (fun st k => (st.lpush n.queueKey k).srem n.registeredKey k) s

/-- Source `Poll`: the scratch-set name choice with its (dead) existence
check, the `KEYS` prefix scan, then either the set-difference path (some
live entries) or the all-of-registered shortcut (no live entries), followed
by the delivery loop. -/
def Namespace.poll (n : Namespace) (s : Store) (token : Int) : Except String Store :=
  match n.getRegisteredTempSet s token with
  | .error e => .error e
  | .ok s2 =>
    let s1 := n.registeredKey
    let keys := s.keysMatching (n.timerKey "*")
    if keys.length > 0 then
      let sa := s.sadd s2 keys
      let expired := sa.sdiff s1 s2
      let sd := sa.del s2
      .ok (n.deliver sd expired)
    else
      .ok (n.deliver s (s.smembers s1))

/-- Source `Next`, reply handling (lines 126-129): a reply that is not
exactly a `[key, value]` pair is an error; otherwise the popped identifier
is the second element. -/
def nextFromReply (keys : List String) : Except String String :=
  if keys.length ≠ 2 then .error ("expected 2 keys, got " ++ toString keys.length)
  else .ok (keys.getD 1 "")

/-- Source `Next`: `BRPOP` on the queue (`none` models "would block"), then
the reply-shape check. -/
def Namespace.next (n : Namespace) (s : Store) : Option (Except String (String × Store)) :=
  match s.rpopReply n.queueKey with
  | none => none
  | some (reply, s') =>
    match nextFromReply reply with
    | .error e => some (.error e)
    | .ok k => some (.ok (k, s'))

/-- Repeatedly consume from the queue via `next`; stops early when `next`
would block or errors. -/
def Namespace.drain (n : Namespace) (s : Store) : Nat → List String
  | 0 => []
  | k + 1 =>
    match n.next s with
    | some (.ok (x, s')) => x :: n.drain s' k
    | _ => []

/-- Modelled from the spec: the general set-difference path of `Poll`
(§4.3 step 2, non-empty case) run against an empty scratch set — compute
`registered \ scratch`, delete the scratch key, deliver the result.  Used
to state the all-expired-shortcut refinement claim. -/
def Namespace.pollGeneralEmptyScratch (n : Namespace) (s : Store) (token : Int) : Store :=
  n.deliver (s.del (n.registeredTempKey token))
    (s.sdiff n.registeredKey (n.registeredTempKey token))

/-- Selector for the four kinds of key a namespace ever reads or writes. -/
inductive KeySel where
  | timer (id : String)
  | registered
  | queue
  | temp (token : Int)
deriving DecidableEq, Repr

/-- The per-kind key suffix (the part after `<prefix>:<namespace>:`). -/
def KeySel.sfx : KeySel → String
  | .timer id => "timer:" ++ id
  | .registered => "registered"
  | .queue => "queue"
  | .temp t => "_registered_" ++ toString t

/-- The key a namespace uses for each key kind. -/
def Namespace.keyOf (n : Namespace) : KeySel → String
  | .timer id => n.timerKey id
  | .registered => n.registeredKey
  | .queue => n.queueKey
  | .temp t => n.registeredTempKey t

/-- The head character of each key-kind suffix (they are pairwise distinct,
which is what keeps the four structures of one namespace on distinct keys). -/
def KeySel.headChar : KeySel → Char
  | .timer _ => 't'
  | .registered => 'r'
  | .queue => 'q'
  | .temp _ => '_'

/-- A store holding one Redis list at key `k` (the shape `deliver` builds from
an empty store); used to reason about queue order. -/
def listQueueStore (k : String) (es : List String) : Store :=
  ⟨0, [(k, ⟨.list es, none⟩)]⟩

/-- A namespace handle on the default client, used by the concrete
evaluation scenarios below. -/
def demoNS : Namespace := New.mkNamespace "ns"

/-- Scenario: one live timer — `Create("foo", 5)` on an empty store at time 0
(its entry expires at time 5). -/
def liveTimerStore : Store := demoNS.create ⟨0, []⟩ "foo" 5

/-- Scenario: two timers created at time 0 — id `"timers:ns:timer:x"` with
duration 5 (expired by time 10) and id `"x"` with duration 100 (still live) —
observed at time 10.  The first id coincides textually with the full entry
key of the second timer. -/
def aliasTimerStore : Store :=
  ((demoNS.create (demoNS.create ⟨0, []⟩ "timers:ns:timer:x" 5) "x" 100).atTime 10)

/-- Scenario: `Create("x", 0)` on an empty store at time 0. -/
def zeroDurStore : Store := demoNS.create ⟨0, []⟩ "x" 0

/-- Scenario: a leftover scratch set already sits at the very key `Poll`
would choose for token 5, alongside a registered id `"a"` with no live
timer entry. -/
def scratchStore : Store :=
  ⟨0, [(demoNS.registeredTempKey 5, ⟨.set ["leftover"], none⟩),
    (demoNS.registeredKey, ⟨.set ["a"], none⟩)]⟩

/-! ### String-level facts about the key scheme -/

theorem dataColon : (":" : String).data = [':'] := rfl

/-- Every key a namespace uses is `<prefix>:<name>:<suffix>`. -/
theorem keyOf_eq (n : Namespace) (k : KeySel) :
    n.keyOf k = n.client.pfx ++ ":" ++ n.name ++ ":" ++ k.sfx := by
  cases k <;>
    (apply String.ext
     simp [Namespace.keyOf, KeySel.sfx, Namespace.timerKey, Namespace.registeredKey,
       Namespace.queueKey, Namespace.registeredTempKey, String.data_append,
       List.append_assoc])

/-- The suffix of each key kind starts with its head character. -/
theorem sfx_data_head (k : KeySel) :
    ∃ rest, k.sfx.data = k.headChar :: rest := by
  cases k with
  | timer id =>
    exact ⟨"imer:".data ++ id.data, by rw [KeySel.sfx, String.data_append]; rfl⟩
  | registered => exact ⟨"egistered".data, rfl⟩
  | queue => exact ⟨"ueue".data, rfl⟩
  | temp t =>
    exact ⟨"registered_".data ++ (toString t).data, by rw [KeySel.sfx, String.data_append]; rfl⟩

/-- Splitting at the first unshared `':'`: if neither of two character lists
contains `':'`, gluing each to a `':'`-headed tail determines both parts. -/
theorem colon_split (a : List Char) :
    ∀ (b sa sb : List Char), ':' ∉ a → ':' ∉ b →
      a ++ ':' :: sa = b ++ ':' :: sb → a = b ∧ sa = sb := by
  induction a with
  | nil =>
    intro b sa sb _ hb h
    cases b with
    | nil => simpa using h
    | cons c bt =>
      simp only [List.nil_append, List.cons_append, List.cons.injEq] at h
      exact absurd (h.1 ▸ List.mem_cons_self c bt) (h.1 ▸ hb)
  | cons c ct ih =>
    intro b sa sb ha hb h
    cases b with
    | nil =>
      simp only [List.nil_append, List.cons_append, List.cons.injEq] at h
      exact absurd (h.1 ▸ List.mem_cons_self c ct) (h.1 ▸ ha)
    | cons d bt =>
      simp only [List.cons_append, List.cons.injEq] at h
      obtain ⟨hcd, htl⟩ := h
      have ha' : ':' ∉ ct := fun hx => ha (List.mem_cons_of_mem _ hx)
      have hb' : ':' ∉ bt := fun hx => hb (List.mem_cons_of_mem _ hx)
      obtain ⟨h1, h2⟩ := ih bt sa sb ha' hb' htl
      exact ⟨by rw [hcd, h1], h2⟩

/-- Keys of one namespace determine the key suffix (prefix and name fixed). -/
theorem keyOf_inj_sfx (n : Namespace) (k1 k2 : KeySel)
    (h : n.keyOf k1 = n.keyOf k2) : k1.sfx = k2.sfx := by
  rw [keyOf_eq, keyOf_eq] at h
  have hd := congrArg String.data h
  simp only [String.data_append, dataColon, List.append_assoc, List.singleton_append] at hd
  have h1 := List.append_cancel_left hd
  have h2 := List.append_cancel_left (List.cons.inj h1).2
  exact String.ext (List.cons.inj h2).2

/-- Keys of different kinds in the same namespace are distinct. -/
theorem keyOf_ne_of_headChar (n : Namespace) (k1 k2 : KeySel)
    (h : k1.headChar ≠ k2.headChar) : n.keyOf k1 ≠ n.keyOf k2 := by
  intro he
  have hs := keyOf_inj_sfx n k1 k2 he
  obtain ⟨r1, e1⟩ := sfx_data_head k1
  obtain ⟨r2, e2⟩ := sfx_data_head k2
  have := congrArg String.data hs
  rw [e1, e2] at this
  exact h (List.cons.inj this).1

theorem registeredKey_ne_queueKey (n : Namespace) : n.registeredKey ≠ n.queueKey :=
  keyOf_ne_of_headChar n .registered .queue (by decide)

theorem registeredKey_ne_timerKey (n : Namespace) (id : String) :
    n.registeredKey ≠ n.timerKey id :=
  keyOf_ne_of_headChar n .registered (.timer id) (by simp only [KeySel.headChar]; decide)

theorem tempKey_ne_queueKey (n : Namespace) (t : Int) :
    n.registeredTempKey t ≠ n.queueKey :=
  keyOf_ne_of_headChar n (.temp t) .queue (by simp only [KeySel.headChar]; decide)

theorem tempKey_ne_registeredKey (n : Namespace) (t : Int) :
    n.registeredTempKey t ≠ n.registeredKey :=
  keyOf_ne_of_headChar n (.temp t) .registered (by simp only [KeySel.headChar]; decide)

/-! ### Store lemmas -/

theorem setKey_now (s : Store) (k : String) (e : Entry) : (s.setKey k e).now = s.now := rfl

theorem del_now (s : Store) (k : String) : (s.del k).now = s.now := rfl

theorem sadd_now (s : Store) (k : String) (xs : List String) : (s.sadd k xs).now = s.now := by
  unfold Store.sadd
  split <;> rfl

theorem srem_now (s : Store) (k x : String) : (s.srem k x).now = s.now := by
  unfold Store.srem
  split
  · dsimp only
    split <;> rfl
  · rfl

theorem lpush_now (s : Store) (k v : String) : (s.lpush k v).now = s.now := by
  unfold Store.lpush
  split <;> rfl

theorem deliver_now (n : Namespace) (ks : List String) :
    ∀ s : Store, (n.deliver s ks).now = s.now := by
  induction ks with
  | nil => intro _; rfl
  | cons a t ih =>
    intro s
    show (n.deliver ((s.lpush n.queueKey a).srem n.registeredKey a) t).now = s.now
    rw [ih, srem_now, lpush_now]

theorem rawGet_setKey_self (s : Store) (k : String) (e : Entry) :
    (s.setKey k e).rawGet k = some e := by
  unfold Store.rawGet Store.setKey
  rw [List.find?_cons_of_pos _ (by simp)]

theorem find?_filter_ne (k k' : String) (h : k' ≠ k) (l : List (String × Entry)) :
    (l.filter (fun kv => kv.1 != k)).find? (fun kv => kv.1 == k') =
      l.find? (fun kv => kv.1 == k') := by
  induction l with
  | nil => rfl
  | cons a t ih =>
    by_cases hak : a.1 = k
    · have h2 : (k == k') = false := beq_eq_false_iff_ne.mpr (fun e => h e.symm)
      simp [List.filter_cons, hak, List.find?_cons, h2, ih]
    · by_cases hak' : a.1 = k' <;>
        simp [List.filter_cons, List.find?_cons, hak, hak', h, ih]

theorem rawGet_setKey_ne (s : Store) (k k' : String) (e : Entry) (h : k' ≠ k) :
    (s.setKey k e).rawGet k' = s.rawGet k' := by
  unfold Store.rawGet Store.setKey
  rw [List.find?_cons_of_neg _ (by simp; exact fun e => h e.symm),
    find?_filter_ne k k' h]

theorem rawGet_del_ne (s : Store) (k k' : String) (h : k' ≠ k) :
    (s.del k).rawGet k' = s.rawGet k' := by
  unfold Store.rawGet Store.del
  rw [find?_filter_ne k k' h]

theorem rawGet_del_self (s : Store) (k : String) :
    (s.del k).rawGet k = none := by
  unfold Store.rawGet Store.del
  have : (s.data.filter (fun kv => kv.1 != k)).find? (fun kv => kv.1 == k) = none := by
    rw [List.find?_eq_none]
    intro x hx
    have := (List.mem_filter.mp hx).2
    simpa using this
  rw [this]

theorem getLive_setKey_self (s : Store) (k : String) (e : Entry) :
    (s.setKey k e).getLive k = if e.live s.now then some e else none := by
  unfold Store.getLive
  rw [rawGet_setKey_self, setKey_now]

theorem getLive_setKey_ne (s : Store) (k k' : String) (e : Entry) (h : k' ≠ k) :
    (s.setKey k e).getLive k' = s.getLive k' := by
  unfold Store.getLive
  rw [rawGet_setKey_ne s k k' e h, setKey_now]

theorem getLive_of_rawGet_none (s : Store) (k : String) (h : s.rawGet k = none) :
    s.getLive k = none := by
  unfold Store.getLive
  rw [h]

theorem existsKey_false_of_rawGet_none (s : Store) (k : String) (h : s.rawGet k = none) :
    s.existsKey k = false := by
  unfold Store.existsKey
  rw [getLive_of_rawGet_none s k h]
  rfl

theorem smembers_of_rawGet_none (s : Store) (k : String) (h : s.rawGet k = none) :
    s.smembers k = [] := by
  unfold Store.smembers
  rw [getLive_of_rawGet_none s k h]

theorem find?_eq_none_of_rawGet_none (s : Store) (k : String) (h : s.rawGet k = none) :
    s.data.find? (fun kv => kv.1 == k) = none := by
  unfold Store.rawGet at h
  cases hf : s.data.find? (fun kv => kv.1 == k) with
  | none => rfl
  | some kv => rw [hf] at h; exact absurd h (by simp)

theorem del_of_rawGet_none (s : Store) (k : String) (h : s.rawGet k = none) :
    s.del k = s := by
  have hf := find?_eq_none_of_rawGet_none s k h
  have : s.data.filter (fun kv => kv.1 != k) = s.data := by
    rw [List.filter_eq_self]
    intro a ha
    have := List.find?_eq_none.mp hf a ha
    simpa using this
  unfold Store.del
  rw [this]

theorem srem_rawGet_ne (s : Store) (key x k : String) (h : k ≠ key) :
    (s.srem key x).rawGet k = s.rawGet k := by
  unfold Store.srem
  split
  · dsimp only
    split
    · exact rawGet_del_ne s key k h
    · exact rawGet_setKey_ne s key k _ h
  · rfl

theorem lpush_rawGet_ne (s : Store) (key v k : String) (h : k ≠ key) :
    (s.lpush key v).rawGet k = s.rawGet k := by
  unfold Store.lpush
  split
  · exact rawGet_setKey_ne s key k _ h
  · exact rawGet_setKey_ne s key k _ h

theorem deliver_rawGet_ne (n : Namespace) (ks : List String) (k : String)
    (hq : k ≠ n.queueKey) (hr : k ≠ n.registeredKey) :
    ∀ s : Store, (n.deliver s ks).rawGet k = s.rawGet k := by
  induction ks with
  | nil => intro _; rfl
  | cons a t ih =>
    intro s
    show (n.deliver ((s.lpush n.queueKey a).srem n.registeredKey a) t).rawGet k = _
    rw [ih, srem_rawGet_ne _ _ _ _ hr, lpush_rawGet_ne _ _ _ _ hq]

theorem sdiff_empty_right (s : Store) (k1 k2 : String) (h : s.smembers k2 = []) :
    s.sdiff k1 k2 = s.smembers k1 := by
  unfold Store.sdiff
  rw [h]
  simp

/-- The scratch-exists error branch of `Poll` is unreachable: every call
returns `.ok`, whatever the store holds (the pipelined `Exists` result is
read before it is available, so the guard always sees 0). -/
theorem poll_always_ok (n : Namespace) (s : Store) (token : Int) :
    ∃ s' : Store, n.poll s token = .ok s' := by
  unfold Namespace.poll Namespace.getRegisteredTempSet pendingPipelineInt
  rw [if_neg (by decide)]
  dsimp only
  split
  · exact ⟨_, rfl⟩
  · exact ⟨_, rfl⟩

/-- Behavior of `Poll` when the prefix scan is empty: the shortcut branch
delivers all of `registered`. -/
theorem poll_of_scan_empty (n : Namespace) (s : Store) (token : Int)
    (hk : s.keysMatching (n.timerKey "*") = []) :
    n.poll s token = .ok (n.deliver s (s.smembers n.registeredKey)) := by
  simp [Namespace.poll, Namespace.getRegisteredTempSet, pendingPipelineInt, hk]

/-! ### Lemmas about `Create` -/

theorem wf_setKey (s : Store) (k : String) (e : Entry) (h : s.WF) :
    (s.setKey k e).WF := by
  unfold Store.WF Store.setKey at *
  simp only [List.map_cons]
  rw [List.nodup_cons]
  constructor
  · intro hk
    obtain ⟨kv, hmem, hfst⟩ := List.mem_map.mp hk
    have := (List.mem_filter.mp hmem).2
    rw [hfst] at this
    simp at this
  · exact List.Nodup.sublist (List.Sublist.map _ (List.filter_sublist _)) h

theorem wf_sadd (s : Store) (k : String) (xs : List String) (h : s.WF) :
    (s.sadd k xs).WF := by
  unfold Store.sadd
  split
  · exact wf_setKey s k _ h
  · exact wf_setKey s k _ h

theorem getLive_live (s : Store) (k : String) (e : Entry)
    (h : s.getLive k = some e) : e.live s.now = true := by
  unfold Store.getLive at h
  cases hr : s.rawGet k with
  | none => rw [hr] at h; exact absurd h (by simp)
  | some e' =>
    rw [hr] at h
    by_cases hl : e'.live s.now
    · simp only [hl, if_true] at h
      simp only [Option.some.injEq] at h
      exact h ▸ hl
    · simp [hl] at h

theorem smembers_setKey_set (x : Store) (k : String) (ms : List String) (dl : Option Nat)
    (hl : Entry.live ⟨.set ms, dl⟩ x.now = true) :
    (x.setKey k ⟨.set ms, dl⟩).smembers k = ms := by
  unfold Store.smembers
  rw [getLive_setKey_self, if_pos hl]

theorem contains_addMembers_single (cur : List String) (x : String) :
    (addMembers cur [x]).contains x = true := by
  unfold addMembers
  simp only [List.foldl_cons, List.foldl_nil]
  by_cases hc : cur.contains x
  · rw [if_pos hc]
    exact hc
  · rw [if_neg hc]
    simp

theorem create_now (n : Namespace) (s : Store) (id : String) (d : Nat) :
    (n.create s id d).now = s.now := by
  unfold Namespace.create
  rw [sadd_now, setKey_now]

theorem sadd_rawGet_ne (s : Store) (key k : String) (xs : List String) (h : k ≠ key) :
    (s.sadd key xs).rawGet k = s.rawGet k := by
  unfold Store.sadd
  split
  · exact rawGet_setKey_ne _ _ _ _ h
  · exact rawGet_setKey_ne _ _ _ _ h

theorem sadd_getLive_ne (s : Store) (key k : String) (xs : List String) (h : k ≠ key) :
    (s.sadd key xs).getLive k = s.getLive k := by
  unfold Store.getLive
  rw [sadd_rawGet_ne s key k xs h, sadd_now]

theorem rawGet_of_getLive (s : Store) (k : String) (e : Entry)
    (h : s.getLive k = some e) : s.rawGet k = some e := by
  unfold Store.getLive at h
  cases hr : s.rawGet k with
  | none => rw [hr] at h; exact absurd h (by simp)
  | some e' =>
    rw [hr] at h
    by_cases hl : e'.live s.now
    · simp only [hl, if_true, Option.some.injEq] at h
      rw [h]
    · simp [hl] at h

theorem sadd_smembers_contains (s : Store) (k x : String) :
    ((s.sadd k [x]).smembers k).contains x = true := by
  unfold Store.sadd
  cases hg : s.getLive k with
  | some e =>
    cases e with
    | mk v dl =>
      cases v with
      | set ms =>
        dsimp only
        have hlive : Entry.live ⟨.set (addMembers ms [x]), dl⟩ s.now = true := by
          simpa [Entry.live] using getLive_live s k _ hg
        rw [smembers_setKey_set s k (addMembers ms [x]) dl hlive]
        exact contains_addMembers_single ms x
      | str v =>
        dsimp only
        rw [smembers_setKey_set s k (addMembers [] [x]) none rfl]
        exact contains_addMembers_single [] x
      | list es =>
        dsimp only
        rw [smembers_setKey_set s k (addMembers [] [x]) none rfl]
        exact contains_addMembers_single [] x
  | none =>
    dsimp only
    rw [smembers_setKey_set s k (addMembers [] [x]) none rfl]
    exact contains_addMembers_single [] x

theorem wf_create (n : Namespace) (s : Store) (id : String) (d : Nat) (h : s.WF) :
    (n.create s id d).WF :=
  wf_sadd _ _ _ (wf_setKey _ _ _ h)

theorem liveKeys_nodup (s : Store) (h : s.WF) : s.liveKeys.Nodup :=
  List.Nodup.sublist (List.Sublist.map _ (List.filter_sublist _)) h

theorem mem_liveKeys_of_rawGet (s : Store) (k : String) (e : Entry)
    (hr : s.rawGet k = some e) (hl : e.live s.now = true) : k ∈ s.liveKeys := by
  unfold Store.rawGet at hr
  cases hf : s.data.find? (fun kv => kv.1 == k) with
  | none => rw [hf] at hr; exact absurd hr (by simp)
  | some kv =>
    rw [hf] at hr
    simp only [Option.some.injEq] at hr
    have hmem := List.mem_of_find?_eq_some hf
    have hk1 : kv.1 = k := by simpa using List.find?_some hf
    unfold Store.liveKeys
    refine List.mem_map.mpr ⟨kv, List.mem_filter.mpr ⟨hmem, ?_⟩, hk1⟩
    rw [hr]
    exact hl

theorem count_liveKeys_one (s : Store) (k : String) (e : Entry) (hwf : s.WF)
    (hr : s.rawGet k = some e) (hl : e.live s.now = true) :
    s.liveKeys.count k = 1 :=
  List.count_eq_one_of_mem (liveKeys_nodup s hwf) (mem_liveKeys_of_rawGet s k e hr hl)

/-! ### Queue-order lemmas -/

theorem getLive_listQueueStore (k : String) (es : List String) :
    (listQueueStore k es).getLive k = some ⟨.list es, none⟩ := by
  unfold listQueueStore Store.getLive Store.rawGet
  rw [List.find?_cons_of_pos _ (by simp)]
  rfl

theorem getLive_listQueueStore_ne (k k' : String) (h : k' ≠ k) (es : List String) :
    (listQueueStore k es).getLive k' = none := by
  unfold listQueueStore Store.getLive Store.rawGet
  rw [List.find?_cons_of_neg _ (by simp; exact fun e => h e.symm)]
  rfl

theorem lpush_listQueueStore (k v : String) (es : List String) :
    (listQueueStore k es).lpush k v = listQueueStore k (v :: es) := by
  unfold Store.lpush
  rw [getLive_listQueueStore]
  show (listQueueStore k es).setKey k ⟨.list (v :: es), none⟩ = listQueueStore k (v :: es)
  unfold Store.setKey listQueueStore
  simp

theorem lpush_emptyStore (k v : String) :
    (⟨0, []⟩ : Store).lpush k v = listQueueStore k [v] := by
  unfold Store.lpush Store.getLive Store.rawGet
  show (⟨0, []⟩ : Store).setKey k ⟨.list [v], none⟩ = listQueueStore k [v]
  unfold Store.setKey listQueueStore
  simp

theorem srem_listQueueStore (k r x : String) (h : r ≠ k) (es : List String) :
    (listQueueStore k es).srem r x = listQueueStore k es := by
  unfold Store.srem
  rw [getLive_listQueueStore_ne k r h es]

theorem srem_emptyStore (r x : String) :
    (⟨0, []⟩ : Store).srem r x = ⟨0, []⟩ := by
  unfold Store.srem Store.getLive Store.rawGet
  rfl

theorem deliver_listQueueStore (n : Namespace) (ids : List String) :
    ∀ es, n.deliver (listQueueStore n.queueKey es) ids =
      listQueueStore n.queueKey (ids.reverse ++ es) := by
  induction ids with
  | nil => intro es; rfl
  | cons a t ih =>
    intro es
    show n.deliver (((listQueueStore n.queueKey es).lpush n.queueKey a).srem
      n.registeredKey a) t = _
    rw [lpush_listQueueStore,
      srem_listQueueStore _ _ _ (registeredKey_ne_queueKey n) _, ih]
    simp

theorem deliver_emptyStore (n : Namespace) (a : String) (t : List String) :
    n.deliver (⟨0, []⟩ : Store) (a :: t) =
      listQueueStore n.queueKey ((a :: t).reverse) := by
  show n.deliver (((⟨0, []⟩ : Store).lpush n.queueKey a).srem n.registeredKey a) t = _
  rw [lpush_emptyStore, srem_listQueueStore _ _ _ (registeredKey_ne_queueKey n) _,
    deliver_listQueueStore]
  simp

theorem rpopReply_single (k a : String) :
    (listQueueStore k [a]).rpopReply k = some ([k, a], (⟨0, []⟩ : Store)) := by
  unfold Store.rpopReply
  rw [getLive_listQueueStore]
  dsimp only
  unfold Store.del listQueueStore
  simp

theorem rpopReply_concat (k b a : String) (bt : List String) :
    (listQueueStore k ((b :: bt) ++ [a])).rpopReply k =
      some ([k, a], listQueueStore k (b :: bt)) := by
  unfold Store.rpopReply
  rw [getLive_listQueueStore]
  dsimp only
  rw [List.getLast?_concat]
  dsimp only
  rw [if_neg (by simp)]
  rw [List.dropLast_concat]
  unfold Store.setKey listQueueStore
  simp

theorem next_single (n : Namespace) (a : String) :
    n.next (listQueueStore n.queueKey [a]) = some (.ok (a, (⟨0, []⟩ : Store))) := by
  unfold Namespace.next
  rw [rpopReply_single]
  rfl

theorem next_concat (n : Namespace) (b a : String) (bt : List String) :
    n.next (listQueueStore n.queueKey ((b :: bt) ++ [a])) =
      some (.ok (a, listQueueStore n.queueKey (b :: bt))) := by
  unfold Namespace.next
  rw [rpopReply_concat]
  rfl

theorem drain_listQueueStore (n : Namespace) :
    ∀ es : List String,
      n.drain (listQueueStore n.queueKey es) es.length = es.reverse := by
  intro es
  induction es using List.reverseRecOn with
  | nil => rfl
  | append_singleton l a ih =>
    cases l with
    | nil =>
      show n.drain (listQueueStore n.queueKey [a]) 1 = [a]
      unfold Namespace.drain
      rw [next_single]
      rfl
    | cons b bt =>
      have hlen : ((b :: bt) ++ [a]).length = (b :: bt).length + 1 := by simp
      rw [hlen]
      show (match n.next (listQueueStore n.queueKey ((b :: bt) ++ [a])) with
        | some (.ok (x, s')) => x :: n.drain s' (b :: bt).length
        | _ => []) = _
      rw [next_concat]
      dsimp only
      rw [ih]
      simp

/-! ### Claim theorems -/

/-- Claim C1 (code bug, evaluated at the failing input): the claim states that
for `d > 0`, `Poll` immediately after `Create(id, d)` neither places `id` in
the queue nor removes it from `registered`, and in general never removes an
id whose entry is still live.  The code violates this: the prefix scan
returns full key names, which the set-difference then compares against the
bare identifiers stored in `registered`, so every registered identifier
counts as expired.  Here `Create("foo", 5)` at time 0 followed by `Poll` at
time 0 — while `timer:foo` is still live — pushes `"foo"` to the queue and
removes it from `registered`. -/
theorem poll_delivers_live_timer_immediately :
    liveTimerStore.getLive (demoNS.timerKey "foo") = some ⟨.str "", some 5⟩ ∧
    (demoNS.poll liveTimerStore 1).map (fun s2 =>
      ((s2.lelems demoNS.queueKey).contains "foo",
        (s2.smembers demoNS.registeredKey).contains "foo")) = .ok (true, false) :=
  ⟨rfl, rfl⟩

/-- Claim C2 (code bug, evaluated at the failing input): the claim states that
once the entry of a created timer has been auto-removed and a `Poll` completes,
the id is in the queue and out of `registered`.  Failing input: id
`"timers:ns:timer:x"` (duration 5, entry auto-removed by poll time 10)
registered alongside a live timer `"x"` whose full entry key is the string
`"timers:ns:timer:x"`.  Because the scratch set holds full key names, the
set-difference removes exactly that id, so the expired timer stays in
`registered` and never reaches the queue, although the poll succeeds. -/
theorem poll_misses_expired_timer :
    aliasTimerStore.getLive (demoNS.timerKey "timers:ns:timer:x") = none ∧
    (aliasTimerStore.smembers demoNS.registeredKey).contains "timers:ns:timer:x" = true ∧
    (demoNS.poll aliasTimerStore 1).map (fun s2 =>
      ((s2.lelems demoNS.queueKey).contains "timers:ns:timer:x",
        (s2.smembers demoNS.registeredKey).contains "timers:ns:timer:x")) =
      .ok (false, true) :=
  ⟨rfl, rfl, rfl⟩

/-- Claim C3 (code bug, evaluated at the failing input): the claim says that
whenever the chosen scratch-set key already exists at the start of `Poll`,
the call fails fast with the distinct scratch-exists error before any expiry
detection.  In the source the guard is dead code: `p.Exists(...).Result()`
is read inside the `Pipelined` callback before the pipeline executes, so it
always yields 0 and the error branch never runs.  Here the store holds a
live scratch set at exactly the key `Poll` chooses for token 5, yet the call
does not return the scratch-exists error: it proceeds with expiry detection
and succeeds, delivering the registered id `"a"`. -/
theorem poll_ignores_existing_scratch :
    scratchStore.existsKey (demoNS.registeredTempKey 5) = true ∧
    demoNS.poll scratchStore 5 ≠ .error scratchExistsMsg ∧
    (demoNS.poll scratchStore 5).map
      (fun s2 => (s2.lelems demoNS.queueKey).contains "a") = .ok true :=
  ⟨rfl, fun h => Except.noConfusion h, rfl⟩

/-- Claim C4 (counterexample): the claim attributes time-to-live `d` to the
entry for every non-negative `d`.  At `d = 0` the code stores the entry
with *no* expiry instead (go-redis maps a zero expiration to "no TTL"):
after `Create("y", 0)` at time 0 the entry is still live at time 7 —
though a time-to-live of 0 would have it auto-removed from time 0 on —
and the stored entry is the no-deadline entry, not one with deadline 0. -/
theorem create_visibility_zero_cx :
    ((demoNS.create (⟨0, []⟩ : Store) "y" 0).atTime 7).getLive
        (demoNS.timerKey "y") = some ⟨.str "", none⟩ ∧
    (demoNS.create (⟨0, []⟩ : Store) "y" 0).rawGet
        (demoNS.timerKey "y") ≠ some ⟨.str "", some 0⟩ :=
  ⟨rfl, by decide⟩

/-- Claim C4 (amended): after `Create(id, d)` succeeds on a well-formed
store, the store contains exactly one live entry for `id` — at key
`timer:<id>`, with empty payload, auto-expiring at `now + d` when `d > 0`
and stored with no expiry when `d = 0` — and `id` is a member of
`registered`. -/
theorem create_visibility_amended (n : Namespace) (s : Store) (id : String) (d : Nat)
    (hwf : s.WF) :
    (n.create s id d).getLive (n.timerKey id) =
        some ⟨.str "", if d = 0 then none else some (s.now + d)⟩ ∧
    ((n.create s id d).smembers n.registeredKey).contains id = true ∧
    (n.create s id d).liveKeys.count (n.timerKey id) = 1 := by
  have htne : n.timerKey id ≠ n.registeredKey :=
    fun h => registeredKey_ne_timerKey n id h.symm
  have hl : Entry.live ⟨.str "", if d = 0 then none else some (s.now + d)⟩ s.now = true := by
    cases d with
    | zero => rfl
    | succ d' => simp [Entry.live]
  have hget : (n.create s id d).getLive (n.timerKey id) =
      some ⟨.str "", if d = 0 then none else some (s.now + d)⟩ := by
    unfold Namespace.create
    rw [sadd_getLive_ne _ _ _ _ htne, getLive_setKey_self, if_pos hl]
  refine ⟨hget, ?_, ?_⟩
  · unfold Namespace.create
    exact sadd_smembers_contains _ _ id
  · have hraw := rawGet_of_getLive _ _ _ hget
    have hl' : Entry.live ⟨.str "", if d = 0 then none else some (s.now + d)⟩
        (n.create s id d).now = true := by
      rw [create_now]
      exact hl
    exact count_liveKeys_one _ _ _ (wf_create n s id d hwf) hraw hl'

/-- Witness: create-visibility at `Create("z", 4)` on an empty well-formed
store at time 3. -/
theorem create_visibility_amended_w :
    (demoNS.create (⟨3, []⟩ : Store) "z" 4).getLive (demoNS.timerKey "z") =
        some ⟨.str "", some 7⟩ ∧
    ((demoNS.create (⟨3, []⟩ : Store) "z" 4).smembers demoNS.registeredKey).contains "z"
        = true ∧
    (demoNS.create (⟨3, []⟩ : Store) "z" 4).liveKeys.count (demoNS.timerKey "z") = 1 := by
  have h := create_visibility_amended demoNS (⟨3, []⟩ : Store) "z" 4 (by simp [Store.WF])
  exact ⟨h.1.trans (by decide), h.2.1, h.2.2⟩

/-- Claim C5 (counterexample): the claim says `Create(id, 0)` yields an
entry that counts as immediately lapsed.  In the code the `d = 0` entry
never lapses: at time 9 it is still present and the prefix scan still
returns it. -/
theorem create_zero_not_lapsed_cx :
    (zeroDurStore.atTime 9).getLive (demoNS.timerKey "x") ≠ none ∧
    (zeroDurStore.atTime 9).keysMatching (demoNS.timerKey "*") ≠ [] :=
  ⟨by decide, by decide⟩

/-- Claim C5 (amended): a `Create(id, 0)` call stores the timer entry with no expiry
— it never lapses — yet a subsequent `Poll` still moves `id` to the queue
(the implemented set-difference delivers every registered id). -/
theorem create_zero_delivered_anyway :
    zeroDurStore.getLive (demoNS.timerKey "x") = some ⟨.str "", none⟩ ∧
    (demoNS.poll (zeroDurStore.atTime 9) 1).map
      (fun s2 => (s2.lelems demoNS.queueKey).contains "x") = .ok true :=
  ⟨rfl, rfl⟩

/-- Claim C6: when the prefix scan returns no live timer entries and the
scratch key is absent, `Poll` takes the shortcut — the expired set is all
of `registered`, no scratch-set key is ever created (the final store still
has none) — and the result coincides exactly with the general
set-difference path run against an empty scratch set. -/
theorem poll_all_expired_shortcut_eq (n : Namespace) (s : Store) (token : Int)
    (hk : s.keysMatching (n.timerKey "*") = [])
    (habs : s.rawGet (n.registeredTempKey token) = none) :
    n.poll s token = .ok (n.pollGeneralEmptyScratch s token) ∧
    n.poll s token = .ok (n.deliver s (s.smembers n.registeredKey)) ∧
    (n.pollGeneralEmptyScratch s token).rawGet (n.registeredTempKey token) = none := by
  have h2 : n.poll s token = .ok (n.deliver s (s.smembers n.registeredKey)) :=
    poll_of_scan_empty n s token hk
  have hsm : s.smembers (n.registeredTempKey token) = [] :=
    smembers_of_rawGet_none _ _ habs
  have hdiff : s.sdiff n.registeredKey (n.registeredTempKey token) =
      s.smembers n.registeredKey := sdiff_empty_right s _ _ hsm
  have hdel : s.del (n.registeredTempKey token) = s := del_of_rawGet_none _ _ habs
  have h1 : n.pollGeneralEmptyScratch s token =
      n.deliver s (s.smembers n.registeredKey) := by
    unfold Namespace.pollGeneralEmptyScratch
    rw [hdiff, hdel]
  refine ⟨by rw [h2, h1], h2, ?_⟩
  rw [h1, deliver_rawGet_ne n _ _ (tempKey_ne_queueKey n token)
    (tempKey_ne_registeredKey n token) s, habs]

/-- Witness: the all-expired shortcut at a concrete store — two registered
ids, one expired timer entry, scan empty at time 10, scratch key absent. -/
theorem poll_all_expired_shortcut_eq_w :
    (⟨10, [(demoNS.registeredKey, ⟨.set ["a", "b"], none⟩),
        (demoNS.timerKey "a", ⟨.str "", some 5⟩)]⟩ : Store).keysMatching
      (demoNS.timerKey "*") = [] ∧
    demoNS.poll (⟨10, [(demoNS.registeredKey, ⟨.set ["a", "b"], none⟩),
        (demoNS.timerKey "a", ⟨.str "", some 5⟩)]⟩ : Store) 7 =
      .ok (demoNS.pollGeneralEmptyScratch
        (⟨10, [(demoNS.registeredKey, ⟨.set ["a", "b"], none⟩),
          (demoNS.timerKey "a", ⟨.str "", some 5⟩)]⟩ : Store) 7) :=
  ⟨by decide,
    (poll_all_expired_shortcut_eq demoNS
      (⟨10, [(demoNS.registeredKey, ⟨.set ["a", "b"], none⟩),
        (demoNS.timerKey "a", ⟨.str "", some 5⟩)]⟩ : Store) 7
      (by decide) (by decide)).1⟩

/-- Claim C7: the reply handling of `Next` — a blocking-pop response that is not
exactly a two-element `[key, value]` pair is surfaced as the returned
"expected 2 keys" error (never swallowed and, being a total function, never
a panic); a well-formed response yields the popped identifier, the second
element. -/
theorem next_reply_shape (keys : List String) :
    (keys.length ≠ 2 → nextFromReply keys =
      .error ("expected 2 keys, got " ++ toString keys.length)) ∧
    (keys.length = 2 → nextFromReply keys = .ok (keys.getD 1 "")) := by
  constructor
  · intro h
    unfold nextFromReply
    rw [if_pos h]
  · intro h
    unfold nextFromReply
    rw [if_neg (fun hh => hh h)]

/-- Witness: reply handling at a malformed (empty) and a well-formed
two-element reply. -/
theorem next_reply_shape_w :
    nextFromReply ["q", "v"] = .ok "v" ∧
    nextFromReply [] = .error ("expected 2 keys, got " ++ toString ([] : List String).length) :=
  ⟨(next_reply_shape ["q", "v"]).2 rfl, (next_reply_shape []).1 (by decide)⟩

/-- Claim C8 (counterexample): the claim asserts key disjointness for every
pair of distinct namespace names.  Names containing the separator `':'`
break it: the timer entry of namespace `"a"` for id `"registered"` is the
very key of the registered set of namespace `"a:timer"`, and `Create` in
`"a"` writes that key. -/
theorem namespace_key_collision_cx :
    ("a" : String) ≠ "a:timer" ∧
    (New.mkNamespace "a").timerKey "registered" =
      (New.mkNamespace "a:timer").registeredKey ∧
    ((New.mkNamespace "a").create (⟨0, []⟩ : Store) "registered" 7).rawGet
      ((New.mkNamespace "a:timer").registeredKey) = some ⟨.str "", some 7⟩ :=
  ⟨by decide, rfl, rfl⟩

/-- Claim C8 (amended): for distinct namespace names that do not contain the
separator `':'` (on a common prefix), every key of one namespace — timer
entry, registered set, queue, or scratch set — is distinct from every key
of the other, so operations in one namespace never touch keys of the other. -/
theorem namespace_isolation_colonfree (p a b : String) (ka kb : KeySel)
    (hne : a ≠ b) (hca : ':' ∉ a.data) (hcb : ':' ∉ b.data) :
    ((⟨p⟩ : Client).mkNamespace a).keyOf ka ≠ ((⟨p⟩ : Client).mkNamespace b).keyOf kb := by
  intro h
  rw [keyOf_eq, keyOf_eq] at h
  have hd := congrArg String.data h
  simp only [Client.mkNamespace, String.data_append, dataColon, List.append_assoc,
    List.singleton_append] at hd
  have h1 := List.append_cancel_left hd
  have h2 := (List.cons.inj h1).2
  exact hne (String.ext (colon_split a.data b.data _ _ hca hcb h2).1)

/-- Witness: namespace isolation at namespaces `"a"` and `"b"` under the
default prefix, comparing a timer key against a registered-set key. -/
theorem namespace_isolation_colonfree_w :
    (New.mkNamespace "a").timerKey "x" ≠ (New.mkNamespace "b").registeredKey :=
  namespace_isolation_colonfree "timers" "a" "b" (.timer "x") .registered
    (by decide) (by decide) (by decide)

/-- Claim C9: the key-scheme helpers produce bit-exact
`<prefix>:<namespace>:timer:<id>`, `<prefix>:<namespace>:registered`,
`<prefix>:<namespace>:queue` and `<prefix>:<namespace>:_registered_<token>`,
and a client constructed by `New` (no prefix override) carries the default
prefix `"timers"`. -/
theorem key_scheme_exact (p ns id : String) (tok : Int) :
    ((⟨p⟩ : Client).mkNamespace ns).timerKey id
        = p ++ ":" ++ ns ++ ":" ++ "timer" ++ ":" ++ id ∧
    ((⟨p⟩ : Client).mkNamespace ns).registeredKey
        = p ++ ":" ++ ns ++ ":" ++ "registered" ∧
    ((⟨p⟩ : Client).mkNamespace ns).queueKey = p ++ ":" ++ ns ++ ":" ++ "queue" ∧
    ((⟨p⟩ : Client).mkNamespace ns).registeredTempKey tok
        = p ++ ":" ++ ns ++ ":" ++ "_registered_" ++ toString tok ∧
    New.pfx = "timers" ∧ defaultPfx = "timers" := by
  refine ⟨?_, ?_, ?_, ?_, rfl, rfl⟩ <;>
    (apply String.ext
     simp only [Client.mkNamespace, Namespace.timerKey, Namespace.registeredKey,
       Namespace.queueKey, Namespace.registeredTempKey, String.data_append,
       List.append_assoc]
     rfl)

/-- Claim C10: the delivery queue is strictly FIFO — the delivery loop of
`Poll` pushes onto the left end of the queue list and `Next` pops from the right
end, so after delivering any sequence of identifiers into an empty store,
successive `Next` calls return them in exactly the delivered order. -/
theorem queue_fifo_order (p ns : String) (ids : List String) :
    ((⟨p⟩ : Client).mkNamespace ns).drain
      (((⟨p⟩ : Client).mkNamespace ns).deliver (⟨0, []⟩ : Store) ids) ids.length = ids := by
  cases ids with
  | nil => rfl
  | cons a t =>
    rw [deliver_emptyStore]
    have h := drain_listQueueStore ((⟨p⟩ : Client).mkNamespace ns) ((a :: t).reverse)
    rw [List.length_reverse] at h
    rw [h, List.reverse_reverse]

end Rimer